import Mathlib

/-!
Verification of the SUNDIALS linear-solver / preconditioner excerpt.

The development shallowly embeds the code of the repository excerpt:

* the solver constants of the dense and band linear-solver headers
  (`cvsdense.h`, `cvband.h`);
* the example problem file `cvkx.c` (`f`, `Precond`, `PSolve`, `UserData`,
  problem constants), which implements a block-diagonal preconditioner over
  a 10 x 10 grid of 2 x 2 dense blocks;
* the public interfaces of the three band-block-diagonal (BBD)
  preconditioner modules (`cvsbbdpre.h`, `idabbdpre.h`, `kinbbdpre.h`);
* where only declarations of an operation are present in the excerpt
  (the staleness policy of the dense/band setup routine, the BBD
  difference-quotient assembly, the BBD re-initialization), the operation
  is modelled from the specification, as flagged in each doc comment.

Machine real numbers (`realtype`) are embedded as `ℚ`; the transcendental
library functions `exp` and `sin` used by `cvkx.c` are passed as explicit
function parameters, so every definition stays executable.
-/

/-! ## Solver constants (from `cvsdense.h` and `cvband.h`) -/

/-- `CVD_MSBJ`: maximum number of steps between dense Jacobian evaluations
(`cvsdense.h`). -/
def CVD_MSBJ : ℕ := 50

/-- `CVD_DGMAX`: maximum change in gamma between dense Jacobian evaluations
(`cvsdense.h`, `RCONST(0.2)`). -/
def CVD_DGMAX : ℚ := 2/10

/-- `CVB_MSBJ`: maximum number of steps between band Jacobian evaluations
(`cvband.h`). -/
def CVB_MSBJ : ℕ := 50

/-- `CVB_DGMAX`: maximum change in gamma between band Jacobian evaluations
(`cvband.h`, `RCONST(0.2)`). -/
def CVB_DGMAX : ℚ := 2/10

/-! ## Jacobian staleness policy (dense linear-solver setup)

`cvsdense.h` declares the solver memory `CVDenseMemRec` (fields `d_M`,
`d_savedJ`, `d_nstlj`, `d_nje`) and the thresholds `CVD_MSBJ`/`CVD_DGMAX`,
but the setup routine itself is not part of the excerpt; it is modelled
from the specification. The saved Jacobian and the factored iteration
matrix are represented by one rational each (a one-dimensional dense
matrix), which is enough to observe which path the setup call takes. -/

/-- State of the dense linear solver relevant to the staleness policy:
`nstlj` and `nje` are the fields `d_nstlj` and `d_nje` of `CVDenseMemRec`;
`gammap` is the implicit coefficient saved at the last Jacobian
evaluation; `savedJ` and `fact` stand for `d_savedJ` and the factored
iteration matrix `d_M`. -/
structure CVDenseMemModel where
  nstlj : ℕ
  gammap : ℚ
  nje : ℕ
  savedJ : ℚ
  fact : ℚ
deriving DecidableEq

/-- Modelled from the spec: the setup call of the dense linear solver.
It computes `steps_since = current_step - step_at_last_eval` and
`coefficient_ratio = |1 - gamma/gamma_at_last_eval|`; re-evaluation is
skipped (the existing factorization is scaled in place by the ratio of
implicit coefficients and reused) when `steps_since < CVD_MSBJ` and
`coefficient_ratio < CVD_DGMAX`; otherwise a fresh Jacobian `jac` is
generated and factored, the evaluation counter `nje` is incremented, and
the staleness state is reset to the current step and coefficient.
The returned boolean reports whether the Jacobian was re-evaluated. -/
def cvDenseSetup (jac : ℚ) (nst : ℕ) (gamma : ℚ) (m : CVDenseMemModel) :
    Bool × CVDenseMemModel :=
  let steps_since := nst - m.nstlj
  let dgamma := |1 - gamma / m.gammap|
  if steps_since < CVD_MSBJ ∧ dgamma < CVD_DGMAX then
    (false, { m with fact := (gamma / m.gammap) * m.fact })
  else
    (true,
      { nstlj := nst, gammap := gamma, nje := m.nje + 1,
        savedJ := jac, fact := 1 - gamma * jac })

/-! ## Small dense kernels on 2 x 2 blocks

`cvkx.c` stores its preconditioner as 2 x 2 dense blocks (`NUM_SPECIES = 2`)
and manipulates them through the generic small dense kernels `dencopy`,
`denscale`, `denaddI`, `gefa`, `gesl`. Those kernels are building blocks
external to the excerpt; they are modelled from the spec (LU factorization
in place with partial pivoting, exact forward/backward substitution),
specialized to blocks of size 2. Entry `aij` is the matrix entry in row
`i`, column `j`, with 1-based names matching the `IJth` macro. -/

/-- A 2 x 2 dense block, stored entrywise. -/
structure Den2 where
  a11 : ℚ
  a12 : ℚ
  a21 : ℚ
  a22 : ℚ
deriving DecidableEq

/-- The zero 2 x 2 block (`denalloc` returns zeroed storage conceptually;
used only to build concrete states). -/
def den2Zero : Den2 := ⟨0, 0, 0, 0⟩

/-- The 2 x 2 identity block. -/
def den2Ident : Den2 := ⟨1, 0, 0, 1⟩

/-- Modelled from the spec: `denscale(c, A, 2)` scales every entry of the
block by `c`. -/
def denscale (c : ℚ) (A : Den2) : Den2 :=
  ⟨c * A.a11, c * A.a12, c * A.a21, c * A.a22⟩

/-- Modelled from the spec: `denaddI(A, 2)` adds the identity matrix to the
block in place. -/
def denaddI (A : Den2) : Den2 :=
  ⟨A.a11 + 1, A.a12, A.a21, A.a22 + 1⟩

/-- Determinant of a 2 x 2 block. -/
def det2 (A : Den2) : ℚ := A.a11 * A.a22 - A.a12 * A.a21

/-- Modelled from the spec: `gefa(A, 2, p)`, LU factorization in place with
partial pivoting, in the Linpack column-oriented form.  For `n = 2` the
pivot information reduces to a single swap flag (`p[0] = 1`), and the
returned code is `0` on success, `k + 1` if the pivot of elimination step
`k` is zero (a recoverable singular-factorization signal).  On a zero
first pivot the routine returns before modifying the block. -/
def gefa2 (A : Den2) : Den2 × Bool × ℤ :=
  if |A.a11| < |A.a21| then
    if A.a21 = 0 then (A, true, 1)
    else
      let m21 := A.a11 * (-1 / A.a21)
      let f22 := if A.a22 = 0 then A.a12 else A.a12 + A.a22 * m21
      (⟨A.a21, A.a22, m21, f22⟩, true, if f22 = 0 then 2 else 0)
  else
    if A.a11 = 0 then (A, false, 1)
    else
      let m21 := A.a21 * (-1 / A.a11)
      let f22 := if A.a12 = 0 then A.a22 else A.a22 + A.a12 * m21
      (⟨A.a11, A.a12, m21, f22⟩, false, if f22 = 0 then 2 else 0)

/-- Modelled from the spec: `gesl(A, 2, p, b)`, forward/backward
substitution using the factorization produced by `gefa2` (`swap` is the
pivot flag); it returns the solution of the factored system. -/
def gesl2 (A : Den2) (swap : Bool) (b : ℚ × ℚ) : ℚ × ℚ :=
  let mult := if swap then b.2 else b.1
  let b1 := if swap then b.1 else b.2
  let b1 := b1 + mult * A.a21
  let b1 := b1 / A.a22
  let b0 := mult - A.a12 * b1
  let b0 := b0 / A.a11
  (b0, b1)

/-- `gefa2` reports a nonzero (recoverable) code exactly on singular
blocks. -/
theorem gefa2_singular_iff (A : Den2) : (gefa2 A).2.2 ≠ 0 ↔ det2 A = 0 := by
  obtain ⟨a11, a12, a21, a22⟩ := A
  simp only [gefa2, det2]
  by_cases hs : |a11| < |a21|
  · simp only [if_pos hs]
    have h1 : a21 ≠ 0 := by
      intro h
      rw [h] at hs
      simp at hs
      exact absurd hs (not_lt.mpr (abs_nonneg a11))
    simp only [if_neg h1]
    by_cases h2 : a22 = 0
    · subst h2
      by_cases h3 : a12 = 0
      · subst h3; simp
      · simp only [if_pos rfl, if_neg h3]
        simp only [ne_eq, ite_eq_right_iff]
        constructor
        · intro h
          exact absurd (fun hz => absurd hz h3) h
        · intro h
          have : a12 * a21 = 0 := by linarith
          exact absurd this (mul_ne_zero h3 h1)
    · simp only [if_neg h2]
      have key : a12 + a22 * (a11 * (-1 / a21)) = 0 ↔ a11 * a22 - a12 * a21 = 0 := by
        rw [div_eq_mul_inv]
        constructor
        · intro h
          have := congrArg (· * a21) h
          field_simp at this
          linarith
        · intro h
          field_simp
          linarith
      by_cases h3 : a12 + a22 * (a11 * (-1 / a21)) = 0
      · simp only [if_pos h3]
        simpa using key.mp h3
      · simp only [if_neg h3]
        simpa using fun h => absurd (key.mpr h) h3
  · simp only [if_neg hs]
    by_cases h1 : a11 = 0
    · have h21 : a21 = 0 := by
        have := not_lt.mp hs
        rw [h1] at this
        simpa [abs_nonneg] using abs_eq_zero.mp (le_antisymm this (abs_nonneg a21))
      simp [h1, h21]
    · simp only [if_neg h1]
      by_cases h2 : a12 = 0
      · subst h2
        by_cases h3 : a22 = 0
        · subst h3; simp
        · simp only [if_pos rfl, if_neg h3]
          simp only [ne_eq, ite_eq_right_iff]
          constructor
          · intro h
            exact absurd (fun hz => absurd hz h3) h
          · intro h
            have : a11 * a22 = 0 := by linarith
            exact absurd this (mul_ne_zero h1 h3)
      · simp only [if_neg h2]
        have key : a22 + a12 * (a21 * (-1 / a11)) = 0 ↔ a11 * a22 - a12 * a21 = 0 := by
          rw [div_eq_mul_inv]
          constructor
          · intro h
            have := congrArg (· * a11) h
            field_simp at this
            linarith
          · intro h
            field_simp
            linarith
        by_cases h3 : a22 + a12 * (a21 * (-1 / a11)) = 0
        · simp only [if_pos h3]
          simpa using key.mp h3
        · simp only [if_neg h3]
          simpa using fun h => absurd (key.mpr h) h3

/-! ## The `cvkx.c` example problem

`cvkx.c` solves a 2-species diurnal kinetics advection-diffusion problem
on a 10 x 10 grid and supplies the block-diagonal preconditioner pair
`Precond`/`PSolve` to the Krylov solver.  Problem constants are embedded
exactly (every floating literal of the file is a decimal rational).  The
dependent-variable vector is addressed through the `IJKth` macro as a
`Fin MX → Fin MZ → Fin NUM_SPECIES → ℚ` map. -/

abbrev NUM_SPECIES : ℕ := 2

abbrev MX : ℕ := 10

abbrev MZ : ℕ := 10

/-- Horizontal diffusivity `KH = 4.0e-6`. -/
def KH : ℚ := 4 / 10 ^ 6

/-- Advection velocity `VEL = 0.001`. -/
def VEL : ℚ := 1 / 10 ^ 3

/-- Coefficient `KV0 = 1.0e-8` in `Kv(z)`. -/
def KV0 : ℚ := 1 / 10 ^ 8

/-- Rate coefficient `Q1 = 1.63e-16`. -/
def Q1 : ℚ := 163 / 10 ^ 18

/-- Rate coefficient `Q2 = 4.66e-16`. -/
def Q2 : ℚ := 466 / 10 ^ 18

/-- Concentration constant `C3 = 3.7e16` (named `C3const` here). -/
def C3const : ℚ := 37 * 10 ^ 15

/-- Coefficient `A3 = 22.62` in the expression for `q3(t)`. -/
def A3 : ℚ := 2262 / 100

/-- Coefficient `A4 = 7.601` in the expression for `q4(t)`. -/
def A4 : ℚ := 7601 / 1000

/-- The literal `PI = 3.1415926535898` of `cvkx.c` (named `PIconst`). -/
def PIconst : ℚ := 31415926535898 / 10 ^ 13

/-- `HALFDAY = 4.32e4` seconds. -/
def HALFDAY : ℚ := 43200

/-- Grid boundary `XMIN`. -/
def XMIN : ℚ := 0

/-- Grid boundary `XMAX`. -/
def XMAX : ℚ := 20

/-- Grid boundary `ZMIN`. -/
def ZMIN : ℚ := 30

/-- Grid boundary `ZMAX`. -/
def ZMAX : ℚ := 50

/-- A per-gridpoint table of values (the `[MX][MZ]` arrays of `UserData`). -/
abbrev Grid (α : Type) : Type := Fin MX → Fin MZ → α

/-- A dependent-variable vector, addressed as by the `IJKth` macro. -/
abbrev GridVec : Type := Fin MX → Fin MZ → Fin NUM_SPECIES → ℚ

/-- The `UserData` block of `cvkx.c`: preconditioner blocks `P`, saved
Jacobian blocks `Jbd`, pivot data (one swap flag per 2 x 2 block), and the
problem constants, including the diurnal coefficient `q4` that `f` saves
for `Precond`. -/
structure UserData where
  P : Grid Den2
  Jbd : Grid Den2
  pivot : Grid Bool
  q4 : ℚ
  om : ℚ
  dx : ℚ
  dz : ℚ
  hdco : ℚ
  haco : ℚ
  vdco : ℚ

/-- `InitUserData`: loads the problem constants into `data`. -/
def InitUserData (d : UserData) : UserData :=
  let dx := (XMAX - XMIN) / ((MX : ℚ) - 1)
  let dz := (ZMAX - ZMIN) / ((MZ : ℚ) - 1)
  { d with
    om := PIconst / HALFDAY
    dx := dx
    dz := dz
    hdco := KH / (dx * dx)
    haco := VEL / (2 * dx)
    vdco := (1 / (dz * dz)) * KV0 }

/-- Neighbour index in the decreasing direction: the code uses offset
`(j == 0) ? 1 : -1`, reflecting at the lower boundary. -/
def dnIdx (j : Fin 10) : Fin 10 :=
  if j.val = 0 then ⟨1, by norm_num⟩
  else ⟨j.val - 1, Nat.lt_of_le_of_lt (Nat.sub_le _ _) j.isLt⟩

/-- Neighbour index in the increasing direction: the code uses offset
`(j == 9) ? -1 : 1`, reflecting at the upper boundary. -/
def upIdx (j : Fin 10) : Fin 10 :=
  if h : j.val = 9 then ⟨8, by norm_num⟩
  else ⟨j.val + 1, by have hj := j.isLt; omega⟩

/-- The right-hand side routine `f` of `cvkx.c`.  It sets the diurnal rate
coefficients from `t` (writing `q4` into the user data block), then loads
the kinetic, vertical-diffusion, horizontal-diffusion and advection terms
of both species into `ydot`.  The library functions `sin` and `exp` are
passed as the parameters `rsin` and `rexp`. Returns `(ydot, data)` with
the updated user data block. -/
def fRhs (rsin rexp : ℚ → ℚ) (t : ℚ) (y : GridVec) (data : UserData) :
    GridVec × UserData :=
  let s := rsin (data.om * t)
  let q3 : ℚ := if 0 < s then rexp (-A3 / s) else 0
  let data2 := { data with q4 := if 0 < s then rexp (-A4 / s) else 0 }
  let q4coef := data2.q4
  let delz := data2.dz
  let verdco := data2.vdco
  let hordco := data2.hdco
  let horaco := data2.haco
  let ydot : GridVec := fun jx jz i =>
    let zdn := ZMIN + ((jz.val : ℚ) - 1/2) * delz
    let zup := zdn + delz
    let czdn := verdco * rexp ((2/10) * zdn)
    let czup := verdco * rexp ((2/10) * zup)
    let c1 := y jx jz 0
    let c2 := y jx jz 1
    let qq1 := Q1 * c1 * C3const
    let qq2 := Q2 * c1 * c2
    let qq3 := q3 * C3const
    let qq4 := q4coef * c2
    let rkin1 := -qq1 - qq2 + 2 * qq3 + qq4
    let rkin2 := qq1 - qq2 - qq4
    let c1dn := y jx (dnIdx jz) 0
    let c2dn := y jx (dnIdx jz) 1
    let c1up := y jx (upIdx jz) 0
    let c2up := y jx (upIdx jz) 1
    let vertd1 := czup * (c1up - c1) - czdn * (c1 - c1dn)
    let vertd2 := czup * (c2up - c2) - czdn * (c2 - c2dn)
    let c1lt := y (dnIdx jx) jz 0
    let c2lt := y (dnIdx jx) jz 1
    let c1rt := y (upIdx jx) jz 0
    let c2rt := y (upIdx jx) jz 1
    let hord1 := hordco * (c1rt - 2 * c1 + c1lt)
    let hord2 := hordco * (c2rt - 2 * c2 + c2lt)
    let horad1 := horaco * (c1rt - c1lt)
    let horad2 := horaco * (c2rt - c2lt)
    if i = 0 then vertd1 + hord1 + horad1 + rkin1
    else vertd2 + hord2 + horad2 + rkin2
  (ydot, data2)

/-- The 2 x 2 diagonal Jacobian block of `Precond` at grid point
`(jx, jz)` (the `jok == FALSE` branch), computed from the current iterate
`y` and the `q4` value saved in the user data block by the last `f`
call. -/
def precondJac (rexp : ℚ → ℚ) (y : GridVec) (d : UserData) : Grid Den2 :=
  fun jx jz =>
    let q4coef := d.q4
    let delz := d.dz
    let verdco := d.vdco
    let hordco := d.hdco
    let zdn := ZMIN + ((jz.val : ℚ) - 1/2) * delz
    let zup := zdn + delz
    let czdn := verdco * rexp ((2/10) * zdn)
    let czup := verdco * rexp ((2/10) * zup)
    let diag := -(czdn + czup + 2 * hordco)
    let c1 := y jx jz 0
    let c2 := y jx jz 1
    { a11 := (-Q1 * C3const - Q2 * c2) + diag
      a12 := -Q2 * c1 + q4coef
      a21 := Q1 * C3const - Q2 * c2
      a22 := (-Q2 * c1 - q4coef) + diag }

/-- The Jacobian data `Precond` copies into `P` before scaling: the saved
blocks `Jbd` when the caller asserts they are current (`jok`), a freshly
generated set of blocks otherwise. -/
def precondBase (rexp : ℚ → ℚ) (y : GridVec) (jok : Bool) (d : UserData) :
    Grid Den2 :=
  if jok then d.Jbd else precondJac rexp y d

/-- Pointwise update of one block of a grid. -/
def gridUpdate {α : Type} (g : Grid α) (jx : Fin MX) (jz : Fin MZ) (v : α) :
    Grid α :=
  fun a b => if a = jx ∧ b = jz then v else g a b

/-- The grid points in the order of the factorization loop of `Precond`
(`jx` outer, `jz` inner). -/
def idxList : List (Fin MX × Fin MZ) :=
  (List.finRange MX).flatMap fun jx => (List.finRange MZ).map fun jz => (jx, jz)

/-- The factorization loop of `Precond`: for each block in order, add the
identity, LU-factor in place, and return `1` as soon as one factorization
reports a nonzero (singular) code, leaving the remaining blocks
untouched. -/
def factorLoop :
    Grid Den2 → Grid Bool → List (Fin MX × Fin MZ) → Grid Den2 × Grid Bool × ℤ
  | P, piv, [] => (P, piv, 0)
  | P, piv, q :: rest =>
    let R := gefa2 (denaddI (P q.1 q.2))
    let P2 := gridUpdate P q.1 q.2 R.1
    let piv2 := gridUpdate piv q.1 q.2 R.2.1
    if R.2.2 ≠ 0 then (P2, piv2, 1) else factorLoop P2 piv2 rest

/-- Result of a `Precond` call: the updated user data block, the value
stored through `jcurPtr`, and the return flag. -/
structure PrecondResult where
  data : UserData
  jcur : Bool
  ret : ℤ

/-- The preconditioner setup routine `Precond` of `cvkx.c`.  If `jok`
holds, the saved `Jbd` blocks are copied to `P` and `jcur` is reported
false; otherwise fresh Jacobian blocks are generated from `y` and the
saved `q4`, stored in `Jbd`, copied to `P`, and `jcur` is reported true.
In both cases every `P` block is then scaled by `-gamma`, the identity is
added, and the block is LU-factored in place, returning `1` on the first
singular block and `0` otherwise. -/
def Precond (rexp : ℚ → ℚ) (tn : ℚ) (y fy : GridVec) (jok : Bool)
    (gamma : ℚ) (d : UserData) : PrecondResult :=
  let base := precondBase rexp y jok d
  let P2 : Grid Den2 := fun jx jz => denscale (-gamma) (base jx jz)
  let F := factorLoop P2 d.pivot idxList
  { data := { d with P := F.1, Jbd := base, pivot := F.2.1 }
    jcur := !jok
    ret := F.2.2 }

/-- The memory visible to a `PSolve` call: the vectors passed by the
Krylov solver and the user data block. -/
structure SolveMem where
  y : GridVec
  fy : GridVec
  r : GridVec
  z : GridVec
  vtemp : GridVec
  data : UserData

/-- The preconditioner solve routine `PSolve` of `cvkx.c`: copy `r` to
`z` (`N_VScale(1.0, r, z)`), then solve each 2 x 2 block system in place
on the corresponding segment of `z` using the stored factorizations and
pivots, and return `0`. -/
def PSolve (tn : ℚ) (gamma delta : ℚ) (lr : ℤ) (m : SolveMem) :
    SolveMem × ℤ :=
  let z2 : GridVec := fun jx jz i =>
    let v := gesl2 (m.data.P jx jz) (m.data.pivot jx jz)
      (m.r jx jz 0, m.r jx jz 1)
    if i = 0 then v.1 else v.2
  ({ m with z := z2 }, 0)

/-! ## Properties of the factorization loop -/

theorem gridUpdate_same {α : Type} (g : Grid α) (jx : Fin MX) (jz : Fin MZ)
    (v : α) : gridUpdate g jx jz v jx jz = v := by
  simp [gridUpdate]

theorem gridUpdate_other {α : Type} (g : Grid α) (jx : Fin MX) (jz : Fin MZ)
    (v : α) (a : Fin MX) (b : Fin MZ) (h : ¬(a = jx ∧ b = jz)) :
    gridUpdate g jx jz v a b = g a b := by
  simp only [gridUpdate, if_neg h]

theorem idxList_nodup : idxList.Nodup := by decide

theorem mem_idxList (p : Fin MX × Fin MZ) : p ∈ idxList := by
  simp only [idxList, List.mem_flatMap, List.mem_map, List.mem_finRange,
    true_and]
  exact ⟨p.1, p.2, rfl⟩

/-- The return flag of the factorization loop is `1` exactly when some
block to be factored is singular, and `0` otherwise. -/
theorem factorLoop_ret (l : List (Fin MX × Fin MZ)) (hnd : l.Nodup) :
    ∀ P piv, (factorLoop P piv l).2.2 =
      if ∃ p ∈ l, det2 (denaddI (P p.1 p.2)) = 0 then 1 else 0 := by
  induction l with
  | nil => intro P piv; simp [factorLoop]
  | cons q rest ih =>
    intro P piv
    obtain ⟨hq, hrest⟩ := List.nodup_cons.mp hnd
    by_cases hsing : (gefa2 (denaddI (P q.1 q.2))).2.2 ≠ 0
    · have hdet : det2 (denaddI (P q.1 q.2)) = 0 :=
        (gefa2_singular_iff _).mp hsing
      simp only [factorLoop, if_pos hsing]
      rw [if_pos ⟨q, List.mem_cons_self q rest, hdet⟩]
    · have hdet : det2 (denaddI (P q.1 q.2)) ≠ 0 := fun h =>
        hsing ((gefa2_singular_iff _).mpr h)
      simp only [factorLoop, if_neg hsing]
      rw [ih hrest]
      have hcond : (∃ p ∈ rest,
          det2 (denaddI (gridUpdate P q.1 q.2
            (gefa2 (denaddI (P q.1 q.2))).1 p.1 p.2)) = 0) ↔
          (∃ p ∈ q :: rest, det2 (denaddI (P p.1 p.2)) = 0) := by
        constructor
        · rintro ⟨p, hp, h⟩
          refine ⟨p, List.mem_cons_of_mem _ hp, ?_⟩
          rwa [gridUpdate_other _ _ _ _ _ _ (fun hc => hq ?_)] at h
          have : p = q := Prod.ext hc.1 hc.2
          rwa [← this]
        · rintro ⟨p, hp, h⟩
          rcases List.mem_cons.mp hp with rfl | hp'
          · exact absurd h hdet
          · refine ⟨p, hp', ?_⟩
            rw [gridUpdate_other _ _ _ _ _ _ (fun hc => hq ?_)]
            · exact h
            · have : p = q := Prod.ext hc.1 hc.2
              rwa [← this]
      rw [if_congr hcond rfl rfl]

/-- When no block is singular, the factorization loop stores the factored
form of every block and leaves untouched the positions outside the index
list. -/
theorem factorLoop_P (l : List (Fin MX × Fin MZ)) (hnd : l.Nodup) :
    ∀ P piv, (∀ p ∈ l, det2 (denaddI (P p.1 p.2)) ≠ 0) →
      (factorLoop P piv l).1 =
        fun a b => if (a, b) ∈ l then (gefa2 (denaddI (P a b))).1 else P a b := by
  induction l with
  | nil => intro P piv _; funext a b; simp [factorLoop]
  | cons q rest ih =>
    intro P piv hall
    obtain ⟨hq, hrest⟩ := List.nodup_cons.mp hnd
    have hdet : det2 (denaddI (P q.1 q.2)) ≠ 0 :=
      hall q (List.mem_cons_self q rest)
    have hsing : ¬(gefa2 (denaddI (P q.1 q.2))).2.2 ≠ 0 := fun h =>
      hdet ((gefa2_singular_iff _).mp h)
    simp only [factorLoop, if_neg hsing]
    have hne : ∀ p ∈ rest, ¬(p.1 = q.1 ∧ p.2 = q.2) := by
      intro p hp hc
      exact hq (by rwa [← Prod.ext hc.1 hc.2])
    have hall2 : ∀ p ∈ rest,
        det2 (denaddI (gridUpdate P q.1 q.2
          (gefa2 (denaddI (P q.1 q.2))).1 p.1 p.2)) ≠ 0 := by
      intro p hp
      rw [gridUpdate_other _ _ _ _ _ _ (hne p hp)]
      exact hall p (List.mem_cons_of_mem _ hp)
    rw [ih hrest _ _ hall2]
    funext a b
    by_cases hab : (a, b) ∈ rest
    · rw [if_pos hab, if_pos (List.mem_cons_of_mem _ hab)]
      rw [gridUpdate_other _ _ _ _ _ _ (hne (a, b) hab)]
    · rw [if_neg hab]
      by_cases habq : (a, b) = q
      · have h1 : a = q.1 := congrArg Prod.fst habq
        have h2 : b = q.2 := congrArg Prod.snd habq
        subst h1; subst h2
        rw [if_pos (List.mem_cons_self _ _), gridUpdate_same]
      · have : ¬(a = q.1 ∧ b = q.2) := fun hc => habq (Prod.ext hc.1 hc.2)
        rw [gridUpdate_other _ _ _ _ _ _ this]
        rw [if_neg (by
          intro hmem
          rcases List.mem_cons.mp hmem with h | h
          · exact habq h
          · exact hab h)]

/-- The return flag of `Precond`: `1` exactly when one of the blocks
`I - gamma * J` is singular, `0` otherwise. -/
theorem precondRet_spec (rexp : ℚ → ℚ) (tn : ℚ) (y fy : GridVec)
    (jok : Bool) (gamma : ℚ) (d : UserData) :
    (Precond rexp tn y fy jok gamma d).ret =
      if ∃ jx : Fin MX, ∃ jz : Fin MZ,
          det2 (denaddI (denscale (-gamma) (precondBase rexp y jok d jx jz))) = 0
        then 1 else 0 := by
  simp only [Precond]
  rw [factorLoop_ret idxList idxList_nodup]
  refine if_congr ?_ rfl rfl
  constructor
  · rintro ⟨p, _, h⟩
    exact ⟨p.1, p.2, h⟩
  · rintro ⟨jx, jz, h⟩
    exact ⟨(jx, jz), mem_idxList _, h⟩

/-- On a successful `Precond` call, the stored `P` block at every grid
point is the LU factorization (with partial pivoting) of the scaled,
identity-shifted Jacobian block at that point. -/
theorem precondP_spec (rexp : ℚ → ℚ) (tn : ℚ) (y fy : GridVec)
    (jok : Bool) (gamma : ℚ) (d : UserData)
    (h : (Precond rexp tn y fy jok gamma d).ret = 0) :
    ∀ jx jz, (Precond rexp tn y fy jok gamma d).data.P jx jz =
      (gefa2 (denaddI (denscale (-gamma) (precondBase rexp y jok d jx jz)))).1 := by
  intro jx jz
  rw [precondRet_spec] at h
  have hnot : ¬∃ jx : Fin MX, ∃ jz : Fin MZ,
      det2 (denaddI (denscale (-gamma) (precondBase rexp y jok d jx jz))) = 0 := by
    intro hc
    rw [if_pos hc] at h
    exact one_ne_zero h
  push_neg at hnot
  simp only [Precond]
  rw [factorLoop_P idxList idxList_nodup _ _
    (fun p _ => hnot p.1 p.2)]
  simp [mem_idxList]

/-! ## The band-block-diagonal (BBD) preconditioner module

Only the public headers of the BBD modules (`cvsbbdpre.h`, `idabbdpre.h`,
`kinbbdpre.h`) are part of the excerpt; the difference-quotient assembly,
the allocation and the re-initialization are modelled from the spec, over
one partition of `N` local unknowns with exact rational arithmetic. -/

/-- Modelled from the spec: the sign factor of the difference-quotient
perturbation; a zero component is perturbed in the positive direction. -/
def qsign (v : ℚ) : ℚ := if v < 0 then -1 else 1

/-- Modelled from the spec: the per-column perturbation
`rel * max(|value|, 1/rel) * sign(value)`. -/
def dqPerturb (rel v : ℚ) : ℚ := rel * max |v| (1/rel) * qsign v

/-- Modelled from the spec: forward finite-difference assembly of the
local Jacobian block of the local approximating function `g` at `u`.
Column `j` is `(g(u + inc e_j) - g(u)) / inc` with
`inc = dqPerturb rel (u j)`, restricted to the banded structure given by
the difference-quotient half-bandwidths `mudq` (upper) and `mldq`
(lower).  The second component counts the evaluations of `g`: one base
evaluation plus one per perturbed column. -/
def bbdDQJac (N : ℕ) (g : (Fin N → ℚ) → Fin N → ℚ) (u : Fin N → ℚ)
    (rel : ℚ) (mudq mldq : ℕ) : (Fin N → Fin N → ℚ) × ℕ :=
  let gu := g u
  let J : Fin N → Fin N → ℚ := fun i j =>
    if (i : ℤ) - (j : ℤ) ≤ (mldq : ℤ) ∧ (j : ℤ) - (i : ℤ) ≤ (mudq : ℤ) then
      let inc := dqPerturb rel (u j)
      let up := fun k => if k = j then u j + inc else u k
      (g up i - gu i) / inc
    else 0
  (J, 1 + N)

/-- Modelled from the spec: the retained part of the assembled block;
values outside the kept half-bandwidths `mukeep`/`mlkeep` are
discarded. -/
def bbdRetain (N : ℕ) (mukeep mlkeep : ℕ) (J : Fin N → Fin N → ℚ) :
    Fin N → Fin N → ℚ :=
  fun i j =>
    if (i : ℤ) - (j : ℤ) ≤ (mlkeep : ℤ) ∧ (j : ℤ) - (i : ℤ) ≤ (mukeep : ℤ)
    then J i j else 0

/-- Modelled from the spec and the `dqrely`/`dq_rel_uu`/`dq_rel_yy`
parameter docs of the BBD headers: the relative increment actually used
is the value passed, except that passing `0` selects the default
`sqrt(unit roundoff)`; the default is a floating-point machine constant
and is passed in here as `uroundSqrt`. -/
def bbdSelectRel (dqrely uroundSqrt : ℚ) : ℚ :=
  if dqrely = 0 then uroundSqrt else dqrely

/-- The per-partition state a sequence of BBD setup calls maintains: the
retained banded block and the cumulative `g`-evaluation counter
`nge`. -/
structure BBDSetupState (N : ℕ) where
  savedJ : Fin N → Fin N → ℚ
  nge : ℕ

/-- Modelled from the spec: one (non-reused) BBD setup call with local
function `call.1` evaluated around `call.2`: assemble the
difference-quotient block, retain the kept band, add the evaluation
count to `nge`. -/
def bbdSetupCall (N : ℕ) (mudq mldq mukeep mlkeep : ℕ) (rel : ℚ)
    (call : ((Fin N → ℚ) → Fin N → ℚ) × (Fin N → ℚ))
    (st : BBDSetupState N) : BBDSetupState N :=
  let R := bbdDQJac N call.1 call.2 rel mudq mldq
  { savedJ := bbdRetain N mukeep mlkeep R.1, nge := st.nge + R.2 }

/-- A fixed sequence of BBD setup calls, folded in order. -/
def bbdRun (N : ℕ) (mudq mldq mukeep mlkeep : ℕ) (rel : ℚ)
    (calls : List (((Fin N → ℚ) → Fin N → ℚ) × (Fin N → ℚ)))
    (st : BBDSetupState N) : BBDSetupState N :=
  calls.foldl (fun s c => bbdSetupCall N mudq mldq mukeep mlkeep rel c s) st

/-- The cumulative evaluation counter after a sequence of setup calls
depends only on the initial counter, the number of calls, and the
partition size. -/
theorem bbdRun_nge (N : ℕ) (mudq mldq mukeep mlkeep : ℕ) (rel : ℚ)
    (calls : List (((Fin N → ℚ) → Fin N → ℚ) × (Fin N → ℚ))) :
    ∀ st : BBDSetupState N,
      (bbdRun N mudq mldq mukeep mlkeep rel calls st).nge =
        st.nge + calls.length * (1 + N) := by
  induction calls with
  | nil => intro st; simp [bbdRun]
  | cons c rest ih =>
    intro st
    have step : bbdRun N mudq mldq mukeep mlkeep rel (c :: rest) st =
        bbdRun N mudq mldq mukeep mlkeep rel rest
          (bbdSetupCall N mudq mldq mukeep mlkeep rel c st) := rfl
    rw [step, ih]
    simp [bbdSetupCall, bbdDQJac]
    ring

/-- The assembled 2-unknown block for the identity local function
`g(u) = u` (the scenario of the spec), with full difference-quotient
bandwidths, collected into a 2 x 2 dense block. -/
def bbdAssembled2 (u : Fin 2 → ℚ) (rel : ℚ) : Den2 :=
  let J := (bbdDQJac 2 (fun v => v) u rel 1 1).1
  ⟨J 0 0, J 0 1, J 1 0, J 1 1⟩

/-! ## BBD data blocks and re-initialization (CVODES and IDA)

The `CVBBDData` / `IBBDPrecData` structures are embedded from their
headers, polymorphic in the function-pointer types (`G`, `C`), the banded
matrix type (`M`), the pivot-array type (`Pv`) and, for IDA, the
temporary-vector type (`V`). -/

/-- The `CVBBDData` structure of `cvsbbdpre.h` (the `cv_mem` back-pointer
is omitted). -/
structure CVBBDData (G C M Pv : Type) where
  mudq : ℤ
  mldq : ℤ
  mukeep : ℤ
  mlkeep : ℤ
  dqrely : ℚ
  gloc : G
  cfn : C
  savedJ : M
  savedP : M
  pivots : Pv
  n_local : ℤ
  rpwsize : ℤ
  ipwsize : ℤ
  nge : ℤ

/-- Modelled from the spec: `CVBBDPrecAlloc` records the sizes,
bandwidths and routines, applies the default-selection rule to `dqrely`,
and initializes the evaluation counter.  The storage for `savedJ`,
`savedP` and `pivots` and the workspace sizes are allocation details not
specified by the excerpt; the initial storage values are taken as
parameters and the workspace sizes are set to `0`. -/
def CVBBDPrecAlloc {G C M Pv : Type} (uroundSqrt : ℚ) (Nlocal : ℤ)
    (mudq mldq mukeep mlkeep : ℤ) (dqrely : ℚ) (gloc : G) (cfn : C)
    (savedJ savedP : M) (pivots : Pv) : CVBBDData G C M Pv :=
  { mudq := mudq, mldq := mldq, mukeep := mukeep, mlkeep := mlkeep
    dqrely := bbdSelectRel dqrely uroundSqrt
    gloc := gloc, cfn := cfn
    savedJ := savedJ, savedP := savedP, pivots := pivots
    n_local := Nlocal, rpwsize := 0, ipwsize := 0, nge := 0 }

/-- Modelled from the spec: `CVBBDPrecReInit` changes only the
difference-quotient half-bandwidths, the relative-increment parameter and
the user routine pointers of a previously allocated data block, and
returns `0`. -/
def CVBBDPrecReInit {G C M Pv : Type} (pd : CVBBDData G C M Pv)
    (mudq mldq : ℤ) (dqrely : ℚ) (gloc : G) (cfn : C) :
    CVBBDData G C M Pv × ℤ :=
  ({ pd with
      mudq := mudq
      mldq := mldq
      dqrely := dqrely
      gloc := gloc
      cfn := cfn }, 0)

/-- The `IBBDPrecData` structure of `idabbdpre.h` (the `IDA_mem`
back-pointer is omitted). -/
structure IBBDPrecData (G C M Pv V : Type) where
  mudq : ℤ
  mldq : ℤ
  mukeep : ℤ
  mlkeep : ℤ
  rel_yy : ℚ
  glocal : G
  gcomm : C
  tempv4 : V
  PP : M
  pivots : Pv
  n_local : ℤ
  rpwsize : ℤ
  ipwsize : ℤ
  nge : ℤ

/-- Modelled from the spec: `IDABBDPrecReInit` changes only the
difference-quotient half-bandwidths, the relative-increment parameter and
the user routine pointers of a previously allocated data block, and
returns `0`. -/
def IDABBDPrecReInit {G C M Pv V : Type} (pd : IBBDPrecData G C M Pv V)
    (mudq mldq : ℤ) (dq_rel_yy : ℚ) (glocal : G) (gcomm : C) :
    IBBDPrecData G C M Pv V × ℤ :=
  ({ pd with
      mudq := mudq
      mldq := mldq
      rel_yy := dq_rel_yy
      glocal := glocal
      gcomm := gcomm }, 0)

/-! ## The public interfaces of the three BBD variants

The parameter lists of every operation declared by `cvsbbdpre.h`,
`idabbdpre.h` and `kinbbdpre.h`, abstracted over the C scalar integer
types (`integertype`, `long int` and `int` are all mapped to `intScalar`,
and all integer output pointers to `outIntPtr`) and over the
variant-specific function-pointer typedefs (mapped to `localFn` /
`commFn`). -/

/-- Abstracted C parameter types of the BBD interfaces. -/
inductive CTy where
  | voidPtr
  | intScalar
  | realScalar
  | localFn
  | commFn
  | nvec
  | boolScalar
  | boolPtr
  | outIntPtr
deriving DecidableEq

open CTy in
/-- The operations of one BBD preconditioner variant, with their
parameter lists; `reinit` is `none` when the variant declares no
re-initialization operation. -/
structure BBDIface where
  alloc : List CTy
  reinit : Option (List CTy)
  free : List CTy
  getIntWorkSpace : List CTy
  getRealWorkSpace : List CTy
  getNumGfnEvals : List CTy
  setup : List CTy
  solve : List CTy
deriving DecidableEq

open CTy in
/-- The CVODES BBD interface (`cvsbbdpre.h`). -/
def cvBBDIface : BBDIface where
  alloc := [voidPtr, intScalar, intScalar, intScalar, intScalar, intScalar,
    realScalar, localFn, commFn]
  reinit := some [voidPtr, intScalar, intScalar, realScalar, localFn, commFn]
  free := [voidPtr]
  getIntWorkSpace := [voidPtr, outIntPtr]
  getRealWorkSpace := [voidPtr, outIntPtr]
  getNumGfnEvals := [voidPtr, outIntPtr]
  setup := [realScalar, nvec, nvec, boolScalar, boolPtr, realScalar,
    voidPtr, nvec, nvec, nvec]
  solve := [realScalar, nvec, nvec, nvec, nvec, realScalar, realScalar,
    intScalar, voidPtr, nvec]

open CTy in
/-- The IDA BBD interface (`idabbdpre.h`). -/
def idaBBDIface : BBDIface where
  alloc := [voidPtr, intScalar, intScalar, intScalar, intScalar, intScalar,
    realScalar, localFn, commFn]
  reinit := some [voidPtr, intScalar, intScalar, realScalar, localFn, commFn]
  free := [voidPtr]
  getIntWorkSpace := [voidPtr, outIntPtr]
  getRealWorkSpace := [voidPtr, outIntPtr]
  getNumGfnEvals := [voidPtr, outIntPtr]
  setup := [realScalar, nvec, nvec, nvec, realScalar, voidPtr,
    nvec, nvec, nvec]
  solve := [realScalar, nvec, nvec, nvec, nvec, nvec, realScalar,
    realScalar, voidPtr, nvec]

open CTy in
/-- The KINSOL BBD interface (`kinbbdpre.h`). -/
def kinBBDIface : BBDIface where
  alloc := [voidPtr, intScalar, intScalar, intScalar, realScalar,
    localFn, commFn]
  reinit := none
  free := [voidPtr]
  getIntWorkSpace := [voidPtr, outIntPtr]
  getRealWorkSpace := [voidPtr, outIntPtr]
  getNumGfnEvals := [voidPtr, outIntPtr]
  setup := [nvec, nvec, nvec, nvec, voidPtr, nvec, nvec]
  solve := [nvec, nvec, nvec, nvec, nvec, voidPtr, nvec]

/-- The claim that the BBD preconditioner presents an identical public
interface across the three variants, formalized as equality of the three
interface descriptions. -/
def bbdIfacesIdentical : Prop :=
  cvBBDIface = idaBBDIface ∧ idaBBDIface = kinBBDIface

/-! ## Concrete objects used by witnesses -/

/-- A concrete `UserData` value: zeroed blocks, pivots and constants. -/
def userData0 : UserData where
  P := fun _ _ => den2Zero
  Jbd := fun _ _ => den2Zero
  pivot := fun _ _ => false
  q4 := 0
  om := 0
  dx := 0
  dz := 0
  hdco := 0
  haco := 0
  vdco := 0

/-- The zero dependent-variable vector. -/
def gridVec0 : GridVec := fun _ _ _ => 0

/-- A constant stand-in for the `exp` library function. -/
def constOne : ℚ → ℚ := fun _ => 1

/-! ## The claims -/

/-- C1: on every linear-solver setup call after a prior successful setup,
the Jacobian is re-evaluated if and only if `steps_since >= CVD_MSBJ` or
`|1 - gamma/gammap| >= CVD_DGMAX`; when both are strictly below their
thresholds the existing factorization is scaled and reused and `nje` is
not incremented; otherwise a fresh Jacobian is generated and factored,
`nje` is incremented, and the staleness state is reset to the current
step and coefficient. -/
theorem claim_C1_staleness_policy (jac : ℚ) (nst : ℕ) (gamma : ℚ)
    (m : CVDenseMemModel) :
    ((cvDenseSetup jac nst gamma m).1 = true ↔
      CVD_MSBJ ≤ nst - m.nstlj ∨ CVD_DGMAX ≤ |1 - gamma / m.gammap|)
    ∧ ((cvDenseSetup jac nst gamma m).1 = false →
        (cvDenseSetup jac nst gamma m).2.nje = m.nje ∧
        (cvDenseSetup jac nst gamma m).2.nstlj = m.nstlj ∧
        (cvDenseSetup jac nst gamma m).2.gammap = m.gammap ∧
        (cvDenseSetup jac nst gamma m).2.savedJ = m.savedJ ∧
        (cvDenseSetup jac nst gamma m).2.fact = (gamma / m.gammap) * m.fact)
    ∧ ((cvDenseSetup jac nst gamma m).1 = true →
        (cvDenseSetup jac nst gamma m).2.nje = m.nje + 1 ∧
        (cvDenseSetup jac nst gamma m).2.nstlj = nst ∧
        (cvDenseSetup jac nst gamma m).2.gammap = gamma ∧
        (cvDenseSetup jac nst gamma m).2.savedJ = jac ∧
        (cvDenseSetup jac nst gamma m).2.fact = 1 - gamma * jac) := by
  unfold cvDenseSetup
  by_cases h : nst - m.nstlj < CVD_MSBJ ∧ |1 - gamma / m.gammap| < CVD_DGMAX
  · rw [if_pos h]
    refine ⟨⟨fun hh => by simp at hh, fun hor => ?_⟩, fun _ => ⟨rfl, rfl, rfl, rfl, rfl⟩,
      fun hh => by simp at hh⟩
    rcases hor with hge | hge
    · exact absurd hge (not_le.mpr h.1)
    · exact absurd hge (not_le.mpr h.2)
  · rw [if_neg h]
    refine ⟨⟨fun _ => ?_, fun _ => rfl⟩, fun hh => by simp at hh,
      fun _ => ⟨rfl, rfl, rfl, rfl, rfl⟩⟩
    rcases not_and_or.mp h with h1 | h2
    · exact Or.inl (not_lt.mp h1)
    · exact Or.inr (not_lt.mp h2)

theorem claim_C1_staleness_policy_witness :
    (cvDenseSetup 7 1 1 ⟨0, 1, 0, 5, 3⟩).1 = false
    ∧ (cvDenseSetup 7 1 1 ⟨0, 1, 0, 5, 3⟩).2.nje = 0
    ∧ (cvDenseSetup 7 60 1 ⟨0, 1, 0, 5, 3⟩).1 = true
    ∧ (cvDenseSetup 7 60 1 ⟨0, 1, 0, 5, 3⟩).2.nje = 1 := by
  have h1 : (cvDenseSetup 7 1 1 ⟨0, 1, 0, 5, 3⟩).1 = false := by
    norm_num [cvDenseSetup, CVD_MSBJ, CVD_DGMAX]
  have h2 : (cvDenseSetup 7 60 1 ⟨0, 1, 0, 5, 3⟩).1 = true := by
    norm_num [cvDenseSetup, CVD_MSBJ, CVD_DGMAX]
  exact ⟨h1, ((claim_C1_staleness_policy 7 1 1 _).2.1 h1).1, h2,
    ((claim_C1_staleness_policy 7 60 1 _).2.2 h2).1⟩

/-- C3: a `Precond` call with `jok` true reuses the saved Jacobian data
without regenerating it (`Jbd` is unchanged) and reports `jcur = false`;
a call with `jok` false regenerates the Jacobian data from the current
state, saves it in `Jbd`, and reports `jcur = true`. -/
theorem claim_C3_krylov_precond_flags (rexp : ℚ → ℚ) (tn : ℚ)
    (y fy : GridVec) (gamma : ℚ) (d : UserData) :
    (Precond rexp tn y fy true gamma d).jcur = false
    ∧ (Precond rexp tn y fy true gamma d).data.Jbd = d.Jbd
    ∧ (Precond rexp tn y fy false gamma d).jcur = true
    ∧ (Precond rexp tn y fy false gamma d).data.Jbd = precondJac rexp y d := by
  exact ⟨rfl, rfl, rfl, rfl⟩

/-- C4 (counterexample): the three BBD variants do not present identical
public interfaces: the KINSOL allocation operation does not take the
separate kept half-bandwidths, and KINSOL has no re-initialization
operation. -/
theorem claim_C4_interface_counterexample :
    ¬ bbdIfacesIdentical
    ∧ kinBBDIface.alloc ≠ cvBBDIface.alloc
    ∧ kinBBDIface.reinit = none
    ∧ cvBBDIface.reinit ≠ none := by
  refine ⟨fun h => absurd h.2 (by decide), by decide, rfl, by decide⟩

/-- C4 (amended): the ODE (CVODES) and DAE (IDA) variants agree on the
allocation signature (with separate difference-quotient and kept
half-bandwidths) and on the re-initialization signature; all three agree
on free and on the workspace and evaluation-count accessors; but the
KINSOL variant's allocation takes a single pair of half-bandwidths and no
kept half-bandwidths, KINSOL has no re-initialization operation, and the
setup and solve parameter lists differ across all three variants. -/
theorem claim_C4_interface_amended :
    cvBBDIface.alloc = idaBBDIface.alloc
    ∧ cvBBDIface.reinit = idaBBDIface.reinit
    ∧ cvBBDIface.free = idaBBDIface.free
    ∧ idaBBDIface.free = kinBBDIface.free
    ∧ cvBBDIface.getIntWorkSpace = idaBBDIface.getIntWorkSpace
    ∧ idaBBDIface.getIntWorkSpace = kinBBDIface.getIntWorkSpace
    ∧ cvBBDIface.getRealWorkSpace = idaBBDIface.getRealWorkSpace
    ∧ idaBBDIface.getRealWorkSpace = kinBBDIface.getRealWorkSpace
    ∧ cvBBDIface.getNumGfnEvals = idaBBDIface.getNumGfnEvals
    ∧ idaBBDIface.getNumGfnEvals = kinBBDIface.getNumGfnEvals
    ∧ kinBBDIface.alloc = [CTy.voidPtr, CTy.intScalar, CTy.intScalar,
        CTy.intScalar, CTy.realScalar, CTy.localFn, CTy.commFn]
    ∧ kinBBDIface.reinit = none
    ∧ cvBBDIface.setup ≠ idaBBDIface.setup
    ∧ cvBBDIface.setup ≠ kinBBDIface.setup
    ∧ idaBBDIface.setup ≠ kinBBDIface.setup
    ∧ cvBBDIface.solve ≠ idaBBDIface.solve
    ∧ cvBBDIface.solve ≠ kinBBDIface.solve
    ∧ idaBBDIface.solve ≠ kinBBDIface.solve := by decide

/-- C5: when the LU factorization of any block fails during `Precond`,
the call reports exactly the single global failure value `1` (and `0`
otherwise), regardless of which or how many blocks are singular. -/
theorem claim_C5_failure_aggregation (rexp : ℚ → ℚ) (tn : ℚ)
    (y fy : GridVec) (jok : Bool) (gamma : ℚ) (d : UserData) :
    ((Precond rexp tn y fy jok gamma d).ret = 0 ∨
      (Precond rexp tn y fy jok gamma d).ret = 1)
    ∧ ((Precond rexp tn y fy jok gamma d).ret = 1 ↔
        ∃ jx : Fin MX, ∃ jz : Fin MZ,
          det2 (denaddI (denscale (-gamma)
            (precondBase rexp y jok d jx jz))) = 0) := by
  rw [precondRet_spec]
  by_cases hc : ∃ jx : Fin MX, ∃ jz : Fin MZ,
      det2 (denaddI (denscale (-gamma) (precondBase rexp y jok d jx jz))) = 0
  · rw [if_pos hc]
    exact ⟨Or.inr rfl, iff_of_true rfl hc⟩
  · rw [if_neg hc]
    exact ⟨Or.inl rfl, iff_of_false (by norm_num) hc⟩

/-- C7: the BBD re-initialization operations change only the
difference-quotient half-bandwidths, the relative-perturbation parameter
and the local-approximation/communication routine pointers; the partition
size, the kept half-bandwidths and all allocated storage are unchanged,
and the call returns `0` (stated for both the CVODES and the IDA
variant). -/
theorem claim_C7_reinit_frame {G C M P : Type} (pd : CVBBDData G C M P)
    (mudq mldq : ℤ) (dqrely : ℚ) (gloc : G) (cfn : C)
    {G2 C2 M2 P2 V2 : Type} (ipd : IBBDPrecData G2 C2 M2 P2 V2)
    (imudq imldq : ℤ) (idqrely : ℚ) (iglocal : G2) (igcomm : C2) :
    ((CVBBDPrecReInit pd mudq mldq dqrely gloc cfn).2 = 0
      ∧ (CVBBDPrecReInit pd mudq mldq dqrely gloc cfn).1.mudq = mudq
      ∧ (CVBBDPrecReInit pd mudq mldq dqrely gloc cfn).1.mldq = mldq
      ∧ (CVBBDPrecReInit pd mudq mldq dqrely gloc cfn).1.dqrely = dqrely
      ∧ (CVBBDPrecReInit pd mudq mldq dqrely gloc cfn).1.gloc = gloc
      ∧ (CVBBDPrecReInit pd mudq mldq dqrely gloc cfn).1.cfn = cfn
      ∧ (CVBBDPrecReInit pd mudq mldq dqrely gloc cfn).1.n_local = pd.n_local
      ∧ (CVBBDPrecReInit pd mudq mldq dqrely gloc cfn).1.mukeep = pd.mukeep
      ∧ (CVBBDPrecReInit pd mudq mldq dqrely gloc cfn).1.mlkeep = pd.mlkeep
      ∧ (CVBBDPrecReInit pd mudq mldq dqrely gloc cfn).1.savedJ = pd.savedJ
      ∧ (CVBBDPrecReInit pd mudq mldq dqrely gloc cfn).1.savedP = pd.savedP
      ∧ (CVBBDPrecReInit pd mudq mldq dqrely gloc cfn).1.pivots = pd.pivots
      ∧ (CVBBDPrecReInit pd mudq mldq dqrely gloc cfn).1.rpwsize = pd.rpwsize
      ∧ (CVBBDPrecReInit pd mudq mldq dqrely gloc cfn).1.ipwsize = pd.ipwsize
      ∧ (CVBBDPrecReInit pd mudq mldq dqrely gloc cfn).1.nge = pd.nge)
    ∧ ((IDABBDPrecReInit ipd imudq imldq idqrely iglocal igcomm).2 = 0
      ∧ (IDABBDPrecReInit ipd imudq imldq idqrely iglocal igcomm).1.mudq = imudq
      ∧ (IDABBDPrecReInit ipd imudq imldq idqrely iglocal igcomm).1.mldq = imldq
      ∧ (IDABBDPrecReInit ipd imudq imldq idqrely iglocal igcomm).1.rel_yy = idqrely
      ∧ (IDABBDPrecReInit ipd imudq imldq idqrely iglocal igcomm).1.glocal = iglocal
      ∧ (IDABBDPrecReInit ipd imudq imldq idqrely iglocal igcomm).1.gcomm = igcomm
      ∧ (IDABBDPrecReInit ipd imudq imldq idqrely iglocal igcomm).1.n_local = ipd.n_local
      ∧ (IDABBDPrecReInit ipd imudq imldq idqrely iglocal igcomm).1.mukeep = ipd.mukeep
      ∧ (IDABBDPrecReInit ipd imudq imldq idqrely iglocal igcomm).1.mlkeep = ipd.mlkeep
      ∧ (IDABBDPrecReInit ipd imudq imldq idqrely iglocal igcomm).1.PP = ipd.PP
      ∧ (IDABBDPrecReInit ipd imudq imldq idqrely iglocal igcomm).1.pivots = ipd.pivots
      ∧ (IDABBDPrecReInit ipd imudq imldq idqrely iglocal igcomm).1.tempv4 = ipd.tempv4
      ∧ (IDABBDPrecReInit ipd imudq imldq idqrely iglocal igcomm).1.rpwsize = ipd.rpwsize
      ∧ (IDABBDPrecReInit ipd imudq imldq idqrely iglocal igcomm).1.ipwsize = ipd.ipwsize
      ∧ (IDABBDPrecReInit ipd imudq imldq idqrely iglocal igcomm).1.nge = ipd.nge) := by
  exact ⟨⟨rfl, rfl, rfl, rfl, rfl, rfl, rfl, rfl, rfl, rfl, rfl, rfl, rfl, rfl, rfl⟩,
    ⟨rfl, rfl, rfl, rfl, rfl, rfl, rfl, rfl, rfl, rfl, rfl, rfl, rfl, rfl, rfl⟩⟩

/-- C8: a `PSolve` call mutates only the designated output vector `z`;
the right-hand side `r`, the state vectors `y` and `fy`, the temporary
vector and the user data block are all unchanged on return, the return
value is `0`, and each 2 x 2 segment of `z` is the back-substitution of
the corresponding segment of `r` through the stored factorization. -/
theorem claim_C8_solve_frame (tn gamma delta : ℚ) (lr : ℤ) (m : SolveMem) :
    (PSolve tn gamma delta lr m).1.y = m.y
    ∧ (PSolve tn gamma delta lr m).1.fy = m.fy
    ∧ (PSolve tn gamma delta lr m).1.r = m.r
    ∧ (PSolve tn gamma delta lr m).1.vtemp = m.vtemp
    ∧ (PSolve tn gamma delta lr m).1.data = m.data
    ∧ (PSolve tn gamma delta lr m).2 = 0
    ∧ ∀ jx jz,
        ((PSolve tn gamma delta lr m).1.z jx jz 0,
          (PSolve tn gamma delta lr m).1.z jx jz 1) =
          gesl2 (m.data.P jx jz) (m.data.pivot jx jz)
            (m.r jx jz 0, m.r jx jz 1) := by
  refine ⟨rfl, rfl, rfl, rfl, rfl, rfl, fun jx jz => ?_⟩
  simp [PSolve]

/-- C6: passing `0` for the relative perturbation parameter selects the
default `sqrt(unit roundoff)` (the machine constant `uroundSqrt`), any
nonzero value is used as given (also through the allocation operation),
and the per-column perturbation applied to a local unknown with value `v`
is `rel * max(|v|, 1/rel) * sign(v)`, which is the increment used by the
difference-quotient assembly within the banded structure. -/
theorem claim_C6_default_perturbation :
    (∀ uroundSqrt : ℚ, bbdSelectRel 0 uroundSqrt = uroundSqrt)
    ∧ (∀ dqrely uroundSqrt : ℚ, dqrely ≠ 0 →
        bbdSelectRel dqrely uroundSqrt = dqrely)
    ∧ (∀ (uroundSqrt : ℚ) (Nlocal mudq mldq mukeep mlkeep : ℤ)
        (dqrely : ℚ),
        (@CVBBDPrecAlloc Unit Unit Unit Unit uroundSqrt Nlocal mudq mldq
          mukeep mlkeep dqrely () () () () ()).dqrely =
          bbdSelectRel dqrely uroundSqrt)
    ∧ (∀ rel v : ℚ, v ≠ 0 →
        dqPerturb rel v =
          rel * max |v| (1/rel) * (if v < 0 then -1 else 1))
    ∧ (∀ (N : ℕ) (g : (Fin N → ℚ) → Fin N → ℚ) (u : Fin N → ℚ) (rel : ℚ)
        (mudq mldq : ℕ) (i j : Fin N),
        ((i : ℤ) - (j : ℤ) ≤ (mldq : ℤ) ∧ (j : ℤ) - (i : ℤ) ≤ (mudq : ℤ)) →
        (bbdDQJac N g u rel mudq mldq).1 i j =
          (g (fun k => if k = j then u j + dqPerturb rel (u j) else u k) i
            - g u i) / dqPerturb rel (u j)) := by
  refine ⟨fun u0 => by simp [bbdSelectRel], ?_, ?_, ?_, ?_⟩
  · intro dqrely u0 h
    simp [bbdSelectRel, h]
  · intro u0 Nlocal mudq mldq mukeep mlkeep dqrely
    rfl
  · intro rel v _
    rfl
  · intro N g u rel mudq mldq i j hband
    simp only [bbdDQJac]
    rw [if_pos hband]

theorem claim_C6_default_perturbation_witness :
    (3 : ℚ) ≠ 0
    ∧ bbdSelectRel 3 (1/2) = 3
    ∧ (2 : ℚ) ≠ 0
    ∧ dqPerturb 1 2 = 1 * max |(2 : ℚ)| (1/1) * (if (2 : ℚ) < 0 then -1 else 1)
    ∧ (((0 : Fin 2) : ℤ) - ((0 : Fin 2) : ℤ) ≤ ((1 : ℕ) : ℤ)
        ∧ ((0 : Fin 2) : ℤ) - ((0 : Fin 2) : ℤ) ≤ ((1 : ℕ) : ℤ))
    ∧ (bbdDQJac 2 (fun v => v) (fun _ => 0) 1 1 1).1 0 0 =
        ((fun v => v) (fun k => if k = 0 then (fun _ => (0 : ℚ)) 0 +
            dqPerturb 1 ((fun _ => (0 : ℚ)) 0) else (fun _ => (0 : ℚ)) k) 0
          - (fun v => v) (fun _ => (0 : ℚ)) 0) / dqPerturb 1 ((fun _ => (0 : ℚ)) 0) := by
  have h3 : (3 : ℚ) ≠ 0 := by norm_num
  have h2 : (2 : ℚ) ≠ 0 := by norm_num
  have hband : (((0 : Fin 2) : ℤ) - ((0 : Fin 2) : ℤ) ≤ ((1 : ℕ) : ℤ)
      ∧ ((0 : Fin 2) : ℤ) - ((0 : Fin 2) : ℤ) ≤ ((1 : ℕ) : ℤ)) := by norm_num
  exact ⟨h3, claim_C6_default_perturbation.2.1 3 (1/2) h3, h2,
    claim_C6_default_perturbation.2.2.2.1 1 2 h2, hband,
    claim_C6_default_perturbation.2.2.2.2 2 (fun v => v) (fun _ => 0) 1 1 1 0 0 hband⟩

/-- C9: for fixed difference-quotient half-bandwidths and a fixed
sequence of setup calls, decreasing the kept half-bandwidths never
increases the cumulative number of local-function evaluations `nge`; the
kept half-bandwidths change only which assembled entries are retained
(the narrower retention is a masking of the wider one). -/
theorem claim_C9_keep_bandwidth_monotone (N mudq mldq mk ml mk2 ml2 : ℕ)
    (rel : ℚ)
    (calls : List (((Fin N → ℚ) → Fin N → ℚ) × (Fin N → ℚ)))
    (st : BBDSetupState N) :
    ((bbdRun N mudq mldq mk2 ml2 rel calls st).nge ≤
      (bbdRun N mudq mldq mk ml rel calls st).nge)
    ∧ (mk2 ≤ mk → ml2 ≤ ml → ∀ J : Fin N → Fin N → ℚ,
        bbdRetain N mk2 ml2 J = bbdRetain N mk2 ml2 (bbdRetain N mk ml J)) := by
  constructor
  · rw [bbdRun_nge, bbdRun_nge]
  · intro h1 h2 J
    funext i j
    unfold bbdRetain
    by_cases hb : (i : ℤ) - (j : ℤ) ≤ (ml2 : ℤ) ∧ (j : ℤ) - (i : ℤ) ≤ (mk2 : ℤ)
    · rw [if_pos hb, if_pos hb,
        if_pos ⟨le_trans hb.1 (by exact_mod_cast h2),
          le_trans hb.2 (by exact_mod_cast h1)⟩]
    · rw [if_neg hb, if_neg hb]

theorem claim_C9_keep_bandwidth_monotone_witness :
    (0 : ℕ) ≤ 1
    ∧ (bbdRun 2 1 1 0 0 1 [] ⟨fun _ _ => 0, 0⟩).nge ≤
        (bbdRun 2 1 1 1 1 1 [] ⟨fun _ _ => 0, 0⟩).nge
    ∧ bbdRetain 2 0 0 (fun _ _ => (5 : ℚ)) =
        bbdRetain 2 0 0 (bbdRetain 2 1 1 (fun _ _ => (5 : ℚ))) := by
  have h01 : (0 : ℕ) ≤ 1 := by norm_num
  exact ⟨h01,
    (claim_C9_keep_bandwidth_monotone 2 1 1 1 1 0 0 1 [] ⟨fun _ _ => 0, 0⟩).1,
    (claim_C9_keep_bandwidth_monotone 2 1 1 1 1 0 0 1 [] ⟨fun _ _ => 0, 0⟩).2
      h01 h01 (fun _ _ => 5)⟩

/-- For a positive relative increment the difference-quotient
perturbation never vanishes. -/
theorem dqPerturb_ne_zero (rel v : ℚ) (h : 0 < rel) : dqPerturb rel v ≠ 0 := by
  have hmax : 0 < max |v| (1/rel) :=
    lt_of_lt_of_le (one_div_pos.mpr h) (le_max_right _ _)
  unfold dqPerturb qsign
  by_cases hv : v < 0
  · rw [if_pos hv]
    exact mul_ne_zero (ne_of_gt (mul_pos h hmax)) (by norm_num)
  · rw [if_neg hv, mul_one]
    exact ne_of_gt (mul_pos h hmax)

/-- The difference-quotient block of the identity local function is the
identity matrix, exactly, for every iterate and every positive relative
increment. -/
theorem bbdAssembled2_id (u : Fin 2 → ℚ) (rel : ℚ) (h : 0 < rel) :
    bbdAssembled2 u rel = den2Ident := by
  have hne : ∀ v, dqPerturb rel v ≠ 0 := fun v => dqPerturb_ne_zero rel v h
  simp only [bbdAssembled2, bbdDQJac, den2Ident, Den2.mk.injEq]
  refine ⟨?_, ?_, ?_, ?_⟩
  · rw [if_pos (by decide), if_pos trivial, add_sub_cancel_left]
    exact div_self (hne _)
  · rw [if_pos (by decide), if_neg (by decide), sub_self, zero_div]
  · rw [if_pos (by decide), if_neg (by decide), sub_self, zero_div]
  · rw [if_pos (by decide), if_pos trivial, add_sub_cancel_left]
    exact div_self (hne _)

/-- C2: in a block-diagonal preconditioner setup, after a local Jacobian
block `J` is assembled, the block handed to the factorization equals
`I - gamma * J`, and on success the stored per-partition block is its LU
factorization with partial pivoting; in particular, for one partition of
2 unknowns with identity local function and `gamma = 0.1`, the assembled
block is the identity, after scale-by-`(-gamma)` and add-identity it
equals `0.9 * I`, and a solve with right-hand side `r` returns `r / 0.9`
exactly. -/
theorem claim_C2_bbd_block_setup :
    (∀ (J : Den2) (gamma : ℚ),
      denaddI (denscale (-gamma) J) =
        ⟨1 - gamma * J.a11, -(gamma * J.a12), -(gamma * J.a21),
          1 - gamma * J.a22⟩)
    ∧ (∀ (u : Fin 2 → ℚ) (rel : ℚ), 0 < rel → bbdAssembled2 u rel = den2Ident)
    ∧ gefa2 (denaddI (denscale (-(1/10)) den2Ident)) =
        (⟨9/10, 0, 0, 9/10⟩, false, 0)
    ∧ (∀ r : ℚ × ℚ,
        gesl2 (gefa2 (denaddI (denscale (-(1/10)) den2Ident))).1
          (gefa2 (denaddI (denscale (-(1/10)) den2Ident))).2.1 r =
          (r.1 / (9/10), r.2 / (9/10)))
    ∧ (∀ (rexp : ℚ → ℚ) (tn : ℚ) (y fy : GridVec) (jok : Bool)
        (gamma : ℚ) (d : UserData),
        (Precond rexp tn y fy jok gamma d).ret = 0 →
        ∀ jx jz, (Precond rexp tn y fy jok gamma d).data.P jx jz =
          (gefa2 (denaddI (denscale (-gamma)
            (precondBase rexp y jok d jx jz)))).1) := by
  have hfac : gefa2 (denaddI (denscale (-(1/10)) den2Ident)) =
      (⟨9/10, 0, 0, 9/10⟩, false, 0) := by
    norm_num [gefa2, denaddI, denscale, den2Ident, Prod.ext_iff, Den2.mk.injEq]
  refine ⟨?_, fun u rel h => bbdAssembled2_id u rel h, hfac, ?_, ?_⟩
  · intro J gamma
    simp only [denaddI, denscale, Den2.mk.injEq]
    refine ⟨by ring, by ring, by ring, by ring⟩
  · intro r
    rw [hfac]
    simp [gesl2]
  · exact fun rexp tn y fy jok gamma d h jx jz =>
      precondP_spec rexp tn y fy jok gamma d h jx jz

theorem claim_C2_bbd_block_setup_witness :
    (0 : ℚ) < 1
    ∧ bbdAssembled2 (fun _ => 0) 1 = den2Ident
    ∧ (Precond constOne 0 gridVec0 gridVec0 true (1/10) userData0).ret = 0
    ∧ (Precond constOne 0 gridVec0 gridVec0 true (1/10) userData0).data.P 0 0 =
        (gefa2 (denaddI (denscale (-(1/10))
          (precondBase constOne gridVec0 true userData0 0 0)))).1 := by
  have h01 : (0 : ℚ) < 1 := by norm_num
  have hret : (Precond constOne 0 gridVec0 gridVec0 true (1/10) userData0).ret = 0 := by
    rw [precondRet_spec]
    rw [if_neg]
    push_neg
    intro jx jz
    norm_num [precondBase, userData0, den2Zero, denscale, denaddI, det2]
  exact ⟨h01, claim_C2_bbd_block_setup.2.1 (fun _ => 0) 1 h01, hret,
    claim_C2_bbd_block_setup.2.2.2.2 constOne 0 gridVec0 gridVec0 true (1/10)
      userData0 hret 0 0⟩

/-- C10: the system function `f` writes the diurnal coefficient `q4` into
the shared user data block on every evaluation; `Precond` reads this
saved `q4` instead of recomputing it from its own time argument (its
result does not depend on `tn` at all); consequently two `Precond` calls
with identical explicit arguments produce different Jacobian blocks when
an `f` evaluation at a different time intervened between them. -/
theorem claim_C10_precond_hidden_state :
    (∀ (rsin rexp : ℚ → ℚ) (t : ℚ) (y : GridVec) (d : UserData),
      ((fRhs rsin rexp t y d).2).q4 =
        if 0 < rsin (d.om * t) then rexp (-A4 / rsin (d.om * t)) else 0)
    ∧ (∀ (rexp : ℚ → ℚ) (tn tn2 : ℚ) (y fy : GridVec) (jok : Bool)
        (gamma : ℚ) (d : UserData),
        Precond rexp tn y fy jok gamma d = Precond rexp tn2 y fy jok gamma d)
    ∧ (Precond constOne 0 gridVec0 gridVec0 false (1/10)
          ((fRhs (fun x => x) constOne 0 gridVec0
            (InitUserData userData0)).2)).data.Jbd 0 0 ≠
      (Precond constOne 0 gridVec0 gridVec0 false (1/10)
          ((fRhs (fun x => x) constOne 1 gridVec0
            (InitUserData userData0)).2)).data.Jbd 0 0 := by
  refine ⟨fun rsin rexp t y d => rfl,
    fun rexp tn tn2 y fy jok gamma d => rfl, ?_⟩
  intro h
  have h12 := congrArg Den2.a12 h
  simp only [Precond, precondBase, Bool.false_eq_true, if_false,
    precondJac, fRhs, gridVec0, constOne, InitUserData, userData0] at h12
  norm_num [PIconst, HALFDAY] at h12
